import Mathlib

/-!
Verification development for the SPEECH-TRAINER worker-supervision and
precompute-cache subsystem (`LIPSYNC/app_worker.py`, `LIPSYNC/sadtalker_worker.py`,
`LIPSYNC/optimized_pipeline.py`).

The Python code is shallowly embedded: pure fragments become Lean functions,
stateful methods become explicit state-passing functions, a raised Python
exception is an `Except.error` value, and I/O-event ordering (lock operations,
wire writes, file writes) is embedded as explicit event traces.  Durations are
rationals (the source computes `n_frames / framerate` and compares against the
rational constant `3.0`).
-/

namespace Pipeline

/-- `AudioChunk` dataclass of `optimized_pipeline.py` (lines 124-130):
`index`, `audio_path`, `duration_sec` (the unused `text` field is omitted). -/
structure AudioChunk where
  index : Nat
  audio_path : String
  duration_sec : ℚ
deriving DecidableEq, Repr

/-- Zero padding used by the f-string `f"chunk_{i:03d}.wav"`. -/
def pad3 (n : Nat) : String :=
  if n < 10 then "00" ++ toString n
  else if n < 100 then "0" ++ toString n
  else toString n

/-- Chunk file name `f"chunk_{i:03d}.wav"` (line 369). -/
def chunkFileName (i : Nat) : String := "chunk_" ++ pad3 i ++ ".wav"

/-- `chunk_start = i * chunk_duration` (line 364). -/
def chunkStart (m : ℚ) (i : Nat) : ℚ := i * m

/-- `chunk_end = min((i + 1) * chunk_duration, duration)` (line 365). -/
def chunkEnd (m d : ℚ) (i : Nat) : ℚ := min ((i + 1 : ℚ) * m) d

/-- `OptimizedSadTalkerPipeline.chunk_audio` (lines 337-387), abstracted over
the audio file: the input is its measured `duration` and the configured
`max_chunk_duration_sec` `m`.  Short audio returns a single chunk whose path is
the input path; otherwise `int(np.ceil(duration / chunk_duration))` chunks are
produced, chunk `i` extracted from `chunk_start` for `actual_duration =
chunk_end - chunk_start` seconds. -/
def chunk_audio (m : ℚ) (inputPath : String) (d : ℚ) : List AudioChunk :=
  if d ≤ m then
    [⟨0, inputPath, d⟩]
  else
    let N : Nat := (⌈d / m⌉).toNat
    (List.range N).map fun i => ⟨i, chunkFileName i, chunkEnd m d i - chunkStart m i⟩

/-- `encoded_{index:03d}.mp4`, the per-chunk H.264 output of
`encode_video_async` (line 482). -/
def encodedName (i : Nat) : String := "encoded_" ++ pad3 i ++ ".mp4"

/-- `_concatenate_videos` output path `final_output.mp4` (line 555). -/
def concatOutputName : String := "final_output.mp4"

/-- Chunk-assembly skeleton of `OptimizedSadTalkerPipeline.generate_full`
(lines 501-546), abstracted over the per-chunk generate-and-encode
collaborator `genEncode` (the inference engine plus `encode_video_async`).
Returns the final path together with a flag recording whether
`_concatenate_videos` was invoked (source lines 538-541:
`if len(encoded_paths) == 1: final_path = encoded_paths[0] else:
final_path = self._concatenate_videos(encoded_paths)`). -/
def generate_full (genEncode : AudioChunk → String) (m : ℚ)
    (inputPath : String) (d : ℚ) : String × Bool :=
  let chunks := chunk_audio m inputPath d
  let encodedPaths := chunks.map genEncode
  if encodedPaths.length = 1 then
    (encodedPaths.headI, false)
  else
    (concatOutputName, true)

end Pipeline

namespace Supervisor

/-- Wire command actions written by `WorkerManager._send_command` (the
`action` field of the JSON object written to the worker's stdin). -/
inductive WireCmd
  | precompute
  | generate
  | quit
deriving DecidableEq, Repr

/-- A parsed worker response line: the `status` field plus the optional
fields the supervisor reads (`error`, `video_path`, `cached`). -/
structure WResponse where
  status : String
  error : Option String := none
  video_path : Option String := none
  cached : Option Bool := none
deriving DecidableEq, Repr

/-- What `self.process.stdout.readline()` yields inside `_send_command`:
either the stream is closed (an empty read) or one well-formed response
line. -/
inductive WorkerRead
  | closed
  | line (resp : WResponse)
deriving DecidableEq, Repr

/-- Supervisor-visible state of `WorkerManager` (app_worker.py lines
102-106): `processAlive` models `self.process is not None and
self.process.poll() is None`, `ready` models `self.ready`,
`facePrecomputed` models `self._face_precomputed`.  There is no crashed
marker among the fields. -/
structure WMState where
  processAlive : Bool
  ready : Bool
  facePrecomputed : Bool
deriving DecidableEq, Repr

/-- Python exceptions raised by the `WorkerManager` methods; an
`Except.error` value in this embedding is a raised exception, an
`Except.ok` value a normal return. -/
inductive SupError
  | workerNotRunning              -- RuntimeError("Worker not running")
  | workerDied (stderr : String)  -- RuntimeError(f"Worker died: {stderr}")
  | runtimeError (msg : String)   -- RuntimeError(resp.get("error", "Unknown error"))
  | keyError                      -- resp["video_path"] on a dict without the key
deriving DecidableEq, Repr

/-- `WorkerManager._send_command` (app_worker.py lines 161-176): raises
`RuntimeError("Worker not running")` when the process is dead, otherwise
writes the command line to the worker's stdin and blocks on one stdout
line; an empty read raises `RuntimeError(f"Worker died: {stderr}")`.  The
returned list records the Command writes that reached the wire.  The method
does not touch `self.lock` or any state field. -/
def send_command (st : WMState) (cmd : WireCmd) (stderrText : String)
    (read : WorkerRead) : Except SupError WResponse × List WireCmd :=
  if st.processAlive then
    match read with
    | .closed => (.error (.workerDied stderrText), [cmd])
    | .line r => (.ok r, [cmd])
  else
    (.error .workerNotRunning, [])

/-- `WorkerManager.precompute_face` (lines 178-187): always sends a
`precompute` Command via `_send_command`; on an `"ok"` response sets
`self._face_precomputed = True`; returns the response dict as a value
(error responses included). -/
def wm_precompute_face (st : WMState) (stderrText : String)
    (read : WorkerRead) :
    Except SupError WResponse × WMState × List WireCmd :=
  match send_command st .precompute stderrText read with
  | (.error e, w) => (.error e, st, w)
  | (.ok r, w) =>
      (.ok r,
       (if r.status = "ok" then { st with facePrecomputed := true } else st),
       w)

/-- `WorkerManager.generate` (lines 189-208): sends a `generate` Command; if
the response's status is not `"ok"` it raises
`RuntimeError(resp.get("error", "Unknown error"))`; otherwise it returns
`resp["video_path"]`.  No state field is modified on any path. -/
def wm_generate (st : WMState) (stderrText : String) (read : WorkerRead) :
    Except SupError String × WMState × List WireCmd :=
  match send_command st .generate stderrText read with
  | (.error e, w) => (.error e, st, w)
  | (.ok r, w) =>
      if r.status ≠ "ok" then
        (.error (.runtimeError (r.error.getD "Unknown error")), st, w)
      else
        match r.video_path with
        | some v => (.ok v, st, w)
        | none => (.error .keyError, st, w)

/-- The first line read during the `start()` handshake, as
`json.loads(line.strip())` sees it: a parse failure (raises
`JSONDecodeError`, caught by the surrounding `except`) or a JSON object
whose optional `status` field is read with `resp.get("status")`. -/
inductive HandshakeLine
  | invalid
  | parsed (status : Option String)
deriving DecidableEq, Repr

/-- `WorkerManager.start` (lines 108-146): under `self.lock`, returns
`True` at once if the process is already alive; otherwise spawns the worker
(`spawnOk` models whether `subprocess.Popen` succeeds) and blocks — without
any timeout — on one handshake line.  Only a payload whose `status` is
`"ready"` sets `self.ready = True` and returns `True`; every other outcome
(spawn failure, unparseable line, any other payload) falls through to the
final `return False`.  Nothing is raised to the caller and no crashed state
is recorded. -/
def wm_start (st : WMState) (spawnOk : Bool) (firstLine : HandshakeLine) :
    Bool × WMState :=
  if st.processAlive then (true, st)
  else if spawnOk then
    let st' := { st with processAlive := true }
    match firstLine with
    | .invalid => (false, st')
    | .parsed status =>
        if status = some "ready" then (true, { st' with ready := true })
        else (false, st')
  else (false, st)

/-- A blocking wait in the supervisor: bounded by a timeout, or unbounded. -/
inductive BlockingWait
  | withTimeout (seconds : ℚ)
  | unbounded
deriving DecidableEq, Repr

/-- Suspension point (a): waiting on `self.lock` (`with self.lock` in
`start`/`stop`); Python's bare blocking `Lock.acquire()` with no timeout
argument. -/
def lockAcquireWait : BlockingWait := .unbounded

/-- Suspension point (b): the handshake read
`self.process.stdout.readline()` in `start` (line 135) — a bare blocking
read with no timeout. -/
def handshakeReadWait : BlockingWait := .unbounded

/-- Suspension point (c): the response read in `_send_command` (line 170).
The method accepts a `timeout: float = 300` parameter but never applies it;
the source comment reads "Read response with timeout (simplified - no real
timeout here)".  The wait is unbounded regardless of the argument. -/
def responseReadWait (timeoutParam : ℚ) : BlockingWait := .unbounded

/-- The default value of the dead `timeout` parameter of `_send_command`
(line 161). -/
def sendCommandTimeoutDefault : ℚ := 300

/-- Atomic events of a `WorkerManager` method relevant to the single-flight
discipline, tagged with the id of the calling thread. -/
inductive LockEvent
  | acquire (tid : Nat)
  | release (tid : Nat)
  | writeCmd (tid : Nat)
  | readResp (tid : Nat)
deriving DecidableEq, Repr

/-- Lock/wire event trace of `_send_command` for one calling thread (lines
161-176): write the Command, read the Response — with no lock acquisition
anywhere in the method. -/
def sendCommandEvents (tid : Nat) : List LockEvent :=
  [.writeCmd tid, .readResp tid]

/-- Lock/wire event trace of `WorkerManager.generate` (lines 189-208): it
delegates to `_send_command` without taking `self.lock`. -/
def generateEvents (tid : Nat) : List LockEvent := sendCommandEvents tid

/-- Lock/wire event trace of `WorkerManager.start` (lines 108-146): the
whole body (spawn and handshake, which write no wire Command) runs inside
`with self.lock`. -/
def startEvents (tid : Nat) : List LockEvent := [.acquire tid, .release tid]

/-- `t` is an interleaving of the two per-thread traces `xs` and `ys`. -/
def isInterleaving : List LockEvent → List LockEvent → List LockEvent → Bool
  | [], [], [] => true
  | [], _, _ => false
  | t :: ts, xs, ys =>
      (match xs with
       | x :: xs' => x = t && isInterleaving ts xs' ys
       | [] => false)
      ||
      (match ys with
       | y :: ys' => y = t && isInterleaving ts xs ys'
       | [] => false)

/-- The mutual-exclusion semantics of `threading.Lock`: an interleaving is
admissible iff `acquire` happens only when the lock is free and `release`
only by the holder.  `writeCmd`/`readResp` are not constrained by the lock
itself — they exclude each other only if the code brackets them with
`acquire`/`release`. -/
def lockAdmissibleAux : Option Nat → List LockEvent → Bool
  | _, [] => true
  | holder, e :: rest =>
      match e, holder with
      | .acquire t, none => lockAdmissibleAux (some t) rest
      | .acquire _, some _ => false
      | .release t, some t' => t = t' && lockAdmissibleAux none rest
      | .release _, none => false
      | _, h => lockAdmissibleAux h rest

def lockAdmissible (t : List LockEvent) : Bool := lockAdmissibleAux none t

/-- Scans the events after a `writeCmd tid` for a Command write by another
thread occurring before this thread's matching `readResp`. -/
def overlapFrom (tid : Nat) : List LockEvent → Bool
  | [] => false
  | .readResp t :: rest => if t = tid then false else overlapFrom tid rest
  | .writeCmd _ :: _ => true
  | _ :: rest => overlapFrom tid rest

/-- The trace contains two overlapping Command writes: a second write lands
on the wire while a previous write is still unanswered. -/
def hasOverlappingWrites : List LockEvent → Bool
  | [] => false
  | .writeCmd t :: rest => overlapFrom t rest || hasOverlappingWrites rest
  | _ :: rest => hasOverlappingWrites rest

/-- HTTP outcome of the Flask `/generate` route (app_worker.py lines
301-368). -/
inductive RouteResult
  | ok (videoPath : String)     -- 200, send_file
  | badRequest (msg : String)   -- 400
  | serviceUnavailable          -- 503 {"error": "Worker not ready"}
  | internalError (msg : String)  -- 500, exception caught by the route
deriving DecidableEq, Repr

/-- `str(e)` for the exceptions of this embedding. -/
def errorMessage : SupError → String
  | .workerNotRunning => "Worker not running"
  | .workerDied s => "Worker died: " ++ s
  | .runtimeError m => m
  | .keyError => "KeyError: video_path"

/-- The Flask route `generate` (lines 301-368): rejects with 503 when
`worker_mgr.is_ready` is false (`is_ready` is `self.ready and self.process
and self.process.poll() is None`, lines 210-212), then checks the request's
audio file and the configured avatar, then calls `worker_mgr.generate`; a
raised exception becomes a 500 response.  The final `Bool` records whether
`WorkerManager.start` is invoked anywhere in the request path — it never
is: the worker is only started by `init_worker()` at server startup (lines
373-396). -/
def route_generate (st : WMState) (audioProvided avatarOk : Bool)
    (stderrText : String) (read : WorkerRead) :
    RouteResult × WMState × Bool :=
  if ¬ (st.ready = true ∧ st.processAlive = true) then
    (.serviceUnavailable, st, false)
  else if ¬ audioProvided then (.badRequest "No audio file", st, false)
  else if ¬ avatarOk then (.badRequest "Avatar not configured", st, false)
  else
    match wm_generate st stderrText read with
    | (.error e, st', _) => (.internalError (errorMessage e), st', false)
    | (.ok v, st', _) => (.ok v, st', false)

end Supervisor

namespace Worker

/-- The reusable per-avatar result of `SadTalkerWorker.precompute_face`
(sadtalker_worker.py lines 96-100): `first_coeff_path`, `crop_pic_path`,
`crop_info`. -/
structure FaceData where
  first_coeff_path : String
  crop_pic_path : String
  crop_info : List Int
deriving DecidableEq, Repr

/-- Outcome of `self.preprocess_model.generate(...)`, the external
inference engine's face extraction (line 88): either a full artifact set or
a `None` coefficient path. -/
inductive EngineResult
  | success (data : FaceData)
  | noFace
deriving DecidableEq, Repr

/-- In-memory state of the worker: `self._face_cache` (line 64), a dict
keyed by `avatar_path`. -/
structure WorkerState where
  face_cache : List (String × FaceData)
deriving DecidableEq, Repr

/-- `SadTalkerWorker.precompute_face` (lines 74-105): a cache hit returns
`{"cached": True, **data}` without touching the engine; a miss invokes the
engine (the final `Bool` of the result records that invocation), raises
`RuntimeError` on a `None` coefficient path, and otherwise stores the
result in `self._face_cache` and returns `{"cached": False, **data}`. -/
def precompute_face (st : WorkerState) (avatar : String)
    (engine : EngineResult) :
    Except String (Bool × FaceData) × WorkerState × Bool :=
  match st.face_cache.lookup avatar with
  | some data => (.ok (true, data), st, false)
  | none =>
      match engine with
      | .noFace => (.error "Failed to extract face coefficients", st, true)
      | .success data =>
          (.ok (false, data), ⟨(avatar, data) :: st.face_cache⟩, true)

/-- One parsed command of the worker's main loop, as `main` dispatches on
`cmd.get("action")` (lines 161-198). -/
inductive WCommand
  | generate
  | precompute
  | ping
  | quit
  | unknown (action : String)
deriving DecidableEq, Repr

/-- The `status` fields of the response lines `main` prints for one
command; `succeed` models whether the delegated engine work ran without an
exception (an exception is answered with a `{"status":"error",...}` line,
lines 196-198). -/
def loopStep (c : WCommand) (succeed : Bool) : List String :=
  match c with
  | .generate => if succeed then ["ok"] else ["error"]
  | .precompute => if succeed then ["ok"] else ["error"]
  | .ping => ["pong"]
  | .quit => ["bye"]
  | .unknown _ => ["error"]

/-- The command loop of `main` (lines 161-198): answers each command with
`loopStep` and breaks after `quit`. -/
def loopRun : List (WCommand × Bool) → List String
  | [] => []
  | (c, s) :: rest =>
      loopStep c s ++ (if c = .quit then [] else loopRun rest)

/-- The full stdout `status` trace of `main` (lines 151-198): one
`{"status": "ready"}` line is printed after model initialisation, before
the command loop reads anything. -/
def worker_main_statuses (cmds : List (WCommand × Bool)) : List String :=
  "ready" :: loopRun cmds

end Worker

namespace Cache

/-- A file write performed while persisting a `PrecomputedFace`. -/
inductive StoreEvent
  | writeCropped   -- shutil.copy2 to avatar_cropped.png (line 299)
  | writeCoeff     -- shutil.copy2 to first_coeff.mat (line 304)
  | writeMeta      -- PrecomputedFace.save writes face_meta.json (line 330)
deriving DecidableEq, Repr

/-- The ordered file writes of `OptimizedSadTalkerPipeline.precompute_face`
after a successful engine extraction (optimized_pipeline.py lines 296-330):
the cropped-image copy (guarded by `Path(crop_pic_path).exists()`), the
coefficient copy (guarded by `Path(first_coeff_path).exists()`), and then —
always last — `precomputed.save(...)`, which writes `face_meta.json`
(`PrecomputedFace.save`, lines 111-121). -/
def precompute_store_events (cropExists coeffExists : Bool) :
    List StoreEvent :=
  (if cropExists then [.writeCropped] else []) ++
  (if coeffExists then [.writeCoeff] else []) ++
  [.writeMeta]

end Cache

namespace Encoder

/-- Outcome of `subprocess.run(cmd, check=True, capture_output=True,
timeout=120)` inside `_reencode_h264`. -/
inductive FfmpegRun
  | completed     -- returned normally (exit status 0)
  | raisedError   -- CalledProcessError or another exception
  | timedOut      -- TimeoutExpired
deriving DecidableEq, Repr

/-- `output_dir / f"h264_{input_path.name}"` (app_worker.py line 237). -/
def h264Name (inputName : String) : String := "h264_" ++ inputName

/-- `_reencode_h264` (app_worker.py lines 235-257): runs ffmpeg inside
`try/except`; on a normal run it returns the `h264_`-prefixed output path
only if that file exists; every failure — raised error, timeout, missing
output file — falls through to `return input_path`.  The function is total:
no failure propagates to the caller. -/
def reencode_h264 (run : FfmpegRun) (outputExists : Bool)
    (inputPath outputPath : String) : String :=
  match run with
  | .completed => if outputExists then outputPath else inputPath
  | .raisedError => inputPath
  | .timedOut => inputPath

end Encoder

namespace Pipeline

/-- Telescoping sum over `List.range`. -/
lemma list_sum_range_sub (g : ℕ → ℚ) (N : ℕ) :
    ((List.range N).map (fun i => g (i + 1) - g i)).sum = g N - g 0 := by
  induction N with
  | zero => simp
  | succ n ih => rw [List.range_succ]; simp [ih]

section ChunkFacts

variable {m d : ℚ}

lemma one_lt_chunk_ceil (hm : 0 < m) (hd : m < d) : 1 < ⌈d / m⌉ := by
  have h1 : (1 : ℚ) < d / m := (one_lt_div hm).mpr hd
  exact Int.lt_ceil.mpr (by exact_mod_cast h1)

lemma ceil_toNat_cast (hm : 0 < m) (hd : m < d) :
    ((⌈d / m⌉.toNat : ℕ) : ℚ) = ((⌈d / m⌉ : ℤ) : ℚ) := by
  have h2 := one_lt_chunk_ceil hm hd
  have : ((⌈d / m⌉.toNat : ℕ) : ℤ) = ⌈d / m⌉ := Int.toNat_of_nonneg (by omega)
  exact_mod_cast congrArg (fun z : ℤ => (z : ℚ)) this

lemma chunk_lt_of_lt (hm : 0 < m) (hd : m < d) {i : ℕ}
    (hi : i + 1 < ⌈d / m⌉.toNat) : ((i : ℚ) + 1) * m < d := by
  have h2 := one_lt_chunk_ceil hm hd
  have hcast := ceil_toNat_cast hm hd
  have hceil : ((⌈d / m⌉ : ℤ) : ℚ) < d / m + 1 := Int.ceil_lt_add_one (d / m)
  have hi' : ((i : ℚ) + 1) ≤ ((⌈d / m⌉.toNat : ℕ) : ℚ) - 1 := by
    have : (i : ℚ) + 2 ≤ ((⌈d / m⌉.toNat : ℕ) : ℚ) := by exact_mod_cast hi
    linarith
  have hlt : ((i : ℚ) + 1) < d / m := by rw [hcast] at hi'; linarith
  calc ((i : ℚ) + 1) * m < (d / m) * m := mul_lt_mul_of_pos_right hlt hm
    _ = d := div_mul_cancel₀ d (ne_of_gt hm)

lemma chunk_le_of_last (hm : 0 < m) (hd : m < d) :
    d ≤ ((⌈d / m⌉.toNat : ℕ) : ℚ) * m := by
  have hcast := ceil_toNat_cast hm hd
  have hle : d / m ≤ ((⌈d / m⌉ : ℤ) : ℚ) := Int.le_ceil (d / m)
  have hdm : d / m ≤ ((⌈d / m⌉.toNat : ℕ) : ℚ) := by rw [hcast]; exact hle
  calc d = (d / m) * m := (div_mul_cancel₀ d (ne_of_gt hm)).symm
    _ ≤ ((⌈d / m⌉.toNat : ℕ) : ℚ) * m := mul_le_mul_of_nonneg_right hdm (le_of_lt hm)

lemma chunk_last_lt (hm : 0 < m) (hd : m < d) :
    (((⌈d / m⌉.toNat : ℕ) : ℚ) - 1) * m < d := by
  have hcast := ceil_toNat_cast hm hd
  have hceil : ((⌈d / m⌉ : ℤ) : ℚ) < d / m + 1 := Int.ceil_lt_add_one (d / m)
  have hlt : ((⌈d / m⌉.toNat : ℕ) : ℚ) - 1 < d / m := by rw [hcast]; linarith
  calc (((⌈d / m⌉.toNat : ℕ) : ℚ) - 1) * m < (d / m) * m :=
        mul_lt_mul_of_pos_right hlt hm
    _ = d := div_mul_cancel₀ d (ne_of_gt hm)

lemma chunk_start_le (hm : 0 < m) (hd : m < d) {i : ℕ}
    (hi : i < ⌈d / m⌉.toNat) : (i : ℚ) * m ≤ d := by
  have h1 : (i : ℚ) ≤ ((⌈d / m⌉.toNat : ℕ) : ℚ) - 1 := by
    have : (i : ℚ) + 1 ≤ ((⌈d / m⌉.toNat : ℕ) : ℚ) := by exact_mod_cast hi
    linarith
  have h2 : (i : ℚ) * m ≤ (((⌈d / m⌉.toNat : ℕ) : ℚ) - 1) * m :=
    mul_le_mul_of_nonneg_right h1 (le_of_lt hm)
  exact le_of_lt (lt_of_le_of_lt h2 (chunk_last_lt hm hd))

lemma chunk_sum (hm : 0 < m) (hd : m < d) :
    ((List.range ⌈d / m⌉.toNat).map
      (fun i => chunkEnd m d i - chunkStart m i)).sum = d := by
  have key : ∀ i ∈ List.range ⌈d / m⌉.toNat,
      chunkEnd m d i - chunkStart m i
        = (fun j : ℕ => min ((j : ℚ) * m) d) (i + 1)
            - (fun j : ℕ => min ((j : ℚ) * m) d) i := by
    intro i hi
    simp only [List.mem_range] at hi
    have hstart : (i : ℚ) * m ≤ d := chunk_start_le hm hd hi
    simp only [chunkEnd, chunkStart]
    rw [min_eq_left hstart]
    push_cast
    ring_nf
  rw [List.map_congr_left key]
  have htel := list_sum_range_sub (fun j : ℕ => min ((j : ℚ) * m) d) ⌈d / m⌉.toNat
  simp only [] at htel ⊢
  rw [htel]
  have h0 : min (((0 : ℕ) : ℚ) * m) d = 0 := by
    rw [Nat.cast_zero, zero_mul]; exact min_eq_left (by linarith)
  have hN : min (((⌈d / m⌉.toNat : ℕ) : ℚ) * m) d = d :=
    min_eq_right (chunk_le_of_last hm hd)
  rw [hN, h0, sub_zero]

end ChunkFacts

/-- C4: for every input audio of duration `d` and configured maximum chunk
duration `m > 0`, `chunk_audio` returns: if `d ≤ m`, exactly one segment of
duration `d`; otherwise exactly `⌈d / m⌉` contiguous, non-overlapping segments
(segment `i` covers `[chunkStart i, chunkEnd i)`, `chunkStart 0 = 0`, each
segment starts where the previous one ends, the last ends at `d`) with indices
`0..N-1` contiguous starting at `0`, every segment's duration equal to `m`
except possibly the last, the last segment's duration positive, and segment
durations summing to `d`.  In particular for `m = 3` and `d = 7` it yields
three segments of durations `[3, 3, 1]` with indices `[0, 1, 2]`. -/
theorem chunk_audio_spec (m d : ℚ) (p : String) (hm : 0 < m) :
    (d ≤ m → chunk_audio m p d = [⟨0, p, d⟩]) ∧
    (m < d →
      (chunk_audio m p d).length = ⌈d / m⌉.toNat ∧
      2 ≤ (chunk_audio m p d).length ∧
      (∀ i, ∀ h : i < (chunk_audio m p d).length,
        ((chunk_audio m p d).get ⟨i, h⟩).index = i) ∧
      (∀ i, ∀ h : i < (chunk_audio m p d).length,
        ((chunk_audio m p d).get ⟨i, h⟩).duration_sec = chunkEnd m d i - chunkStart m i) ∧
      chunkStart m 0 = 0 ∧
      (∀ i, i + 1 < (chunk_audio m p d).length → chunkEnd m d i = chunkStart m (i + 1)) ∧
      chunkEnd m d ((chunk_audio m p d).length - 1) = d ∧
      (∀ i, ∀ h : i < (chunk_audio m p d).length, i + 1 < (chunk_audio m p d).length →
        ((chunk_audio m p d).get ⟨i, h⟩).duration_sec = m) ∧
      (∀ h : (chunk_audio m p d).length - 1 < (chunk_audio m p d).length,
        0 < ((chunk_audio m p d).get
          ⟨(chunk_audio m p d).length - 1, h⟩).duration_sec) ∧
      ((chunk_audio m p d).map AudioChunk.duration_sec).sum = d) ∧
    ((chunk_audio 3 p 7).map AudioChunk.duration_sec = [3, 3, 1] ∧
     (chunk_audio 3 p 7).map AudioChunk.index = [0, 1, 2]) := by
  refine ⟨fun hd => by simp [chunk_audio, hd], fun hd => ?_, ?_⟩
  · have hif : ¬ d ≤ m := not_le.mpr hd
    have hlen : (chunk_audio m p d).length = ⌈d / m⌉.toNat := by
      simp [chunk_audio, hif]
    have hget : ∀ i, ∀ h : i < (chunk_audio m p d).length,
        (chunk_audio m p d).get ⟨i, h⟩ =
          ⟨i, chunkFileName i, chunkEnd m d i - chunkStart m i⟩ := by
      intro i h
      simp [chunk_audio, hif, List.get_eq_getElem, List.getElem_map, List.getElem_range]
    have hN2 : 2 ≤ ⌈d / m⌉.toNat := by
      have := one_lt_chunk_ceil hm hd
      omega
    refine ⟨hlen, by omega, fun i h => by rw [hget i h], fun i h => by rw [hget i h],
      by simp [chunkStart], ?_, ?_, ?_, ?_, ?_⟩
    · intro i hi
      rw [hlen] at hi
      have := chunk_lt_of_lt hm hd hi
      simp only [chunkEnd, chunkStart]
      rw [min_eq_left (le_of_lt this)]
      push_cast
      ring
    · rw [hlen]
      have hio : (⌈d / m⌉.toNat - 1 : ℕ) + 1 = ⌈d / m⌉.toNat := by omega
      simp only [chunkEnd]
      have hcast : ((⌈d / m⌉.toNat - 1 : ℕ) : ℚ) + 1 = ((⌈d / m⌉.toNat : ℕ) : ℚ) := by
        exact_mod_cast congrArg (fun n : ℕ => (n : ℚ)) hio
      rw [hcast]
      exact min_eq_right (chunk_le_of_last hm hd)
    · intro i h hi1
      rw [hget i h]
      rw [hlen] at hi1
      have := chunk_lt_of_lt hm hd hi1
      simp only [chunkEnd, chunkStart]
      rw [min_eq_left (le_of_lt this)]
      ring
    · intro h
      rw [hget _ h]
      rw [hlen]
      have hio : (⌈d / m⌉.toNat - 1 : ℕ) + 1 = ⌈d / m⌉.toNat := by omega
      have hcast : ((⌈d / m⌉.toNat - 1 : ℕ) : ℚ) + 1 = ((⌈d / m⌉.toNat : ℕ) : ℚ) := by
        exact_mod_cast congrArg (fun n : ℕ => (n : ℚ)) hio
      simp only [chunkEnd, chunkStart]
      rw [hcast, min_eq_right (chunk_le_of_last hm hd)]
      have := chunk_last_lt hm hd
      have hq : ((⌈d / m⌉.toNat - 1 : ℕ) : ℚ) = ((⌈d / m⌉.toNat : ℕ) : ℚ) - 1 := by
        linarith [hcast]
      rw [hq]
      linarith
    · have hmap : (chunk_audio m p d).map AudioChunk.duration_sec =
          (List.range ⌈d / m⌉.toNat).map (fun i => chunkEnd m d i - chunkStart m i) := by
        simp [chunk_audio, hif, Function.comp]
      rw [hmap, chunk_sum hm hd]
  · have hc : ⌈(7:ℚ)/3⌉ = 3 := by rw [Int.ceil_eq_iff]; norm_num
    have h3 : (⌈(7:ℚ)/3⌉).toNat = 3 := by rw [hc]; rfl
    constructor <;>
      · simp only [chunk_audio, h3]
        norm_num [chunkEnd, chunkStart, List.range_succ, min_def, Function.comp]

/-- Witness for C4: at `m = 3`, `d = 7` the hypothesis `0 < m` holds and the
segment durations sum to the input duration. -/
theorem chunk_audio_spec_witness :
    (0 : ℚ) < 3 ∧ ((chunk_audio 3 "input.wav" 7).map AudioChunk.duration_sec).sum = 7 :=
  ⟨by norm_num,
   ((chunk_audio_spec 3 7 "input.wav" (by norm_num)).2.1
      (by norm_num)).2.2.2.2.2.2.2.2.2⟩

/-- C5: for an input whose duration is at most the configured maximum chunk
duration, `chunk_audio` produces exactly one segment covering the whole input,
`generate_full` skips `_concatenate_videos` entirely (the `Bool` component is
`false`) and returns that single chunk's own generate-and-encode output
directly, for any per-chunk collaborator `genEncode`. -/
theorem generate_full_single_chunk (genEncode : AudioChunk → String) (m d : ℚ)
    (p : String) (hd : d ≤ m) :
    chunk_audio m p d = [⟨0, p, d⟩] ∧
    generate_full genEncode m p d = (genEncode ⟨0, p, d⟩, false) := by
  constructor
  · simp [chunk_audio, hd]
  · simp [generate_full, chunk_audio, hd]

/-- Witness for C5: a 2-second input with a 3-second maximum is passed through
as one chunk, whose per-chunk encoded output is returned unconcatenated. -/
theorem generate_full_single_chunk_witness :
    generate_full (fun c => encodedName c.index) 3 "in.wav" 2 =
      (encodedName 0, false) :=
  (generate_full_single_chunk (fun c => encodedName c.index) 3 2 "in.wav"
    (by norm_num)).2

end Pipeline



namespace Worker

lemma loopStep_no_ready (c : WCommand) (s : Bool) :
    (loopStep c s).count "ready" = 0 := by
  cases c <;> cases s <;> simp [loopStep, List.count_cons]

lemma loopRun_count_ready (cmds : List (WCommand × Bool)) :
    (loopRun cmds).count "ready" = 0 := by
  induction cmds with
  | nil => rfl
  | cons p rest ih =>
      obtain ⟨c, s⟩ := p
      by_cases hq : c = .quit
      · subst hq
        simp [loopRun, loopStep, List.count_cons]
      · rw [loopRun, if_neg hq, List.count_append, loopStep_no_ready, ih]

end Worker

namespace Supervisor

lemma wm_precompute_face_wire (st : WMState) (s : String) (r : WResponse)
    (h : st.processAlive = true) :
    (wm_precompute_face st s (.line r)).2.2 = [.precompute] := by
  simp [wm_precompute_face, send_command, h]

lemma wm_precompute_face_alive (st : WMState) (s : String) (rd : WorkerRead) :
    (wm_precompute_face st s rd).2.1.processAlive = st.processAlive := by
  rcases rd with _ | r
  · by_cases h : st.processAlive = true <;>
      simp [wm_precompute_face, send_command, h]
  · by_cases h : st.processAlive = true <;>
      simp [wm_precompute_face, send_command, h]
    split <;> simp [h]

/-- C1 counterexample: the schedule `write₁, write₂, read₁, read₂` is an
admissible interleaving of two concurrent `WorkerManager.generate` calls
under the semantics of `self.lock` — because `_send_command` never acquires
the lock, its trace being just `[writeCmd, readResp]` — and that schedule
contains overlapping Command writes. -/
theorem single_flight_counterexample :
    isInterleaving [.writeCmd 1, .writeCmd 2, .readResp 1, .readResp 2]
      (generateEvents 1) (generateEvents 2) = true ∧
    lockAdmissible [.writeCmd 1, .writeCmd 2, .readResp 1, .readResp 2] = true ∧
    hasOverlappingWrites [.writeCmd 1, .writeCmd 2, .readResp 1, .readResp 2] = true ∧
    sendCommandEvents 1 ≠ [.acquire 1, .writeCmd 1, .readResp 1, .release 1] := by
  decide

/-- C1 amended: `WorkerManager` does own a mutually-exclusive lock, but only
`start()`/`stop()` run under it; `_send_command` (hence `generate`) performs
the write-then-read exchange without acquiring it, so two concurrent
`generate()` calls admit a schedule with overlapping Command writes. -/
theorem single_flight_amended (tid : Nat) :
    sendCommandEvents tid = [.writeCmd tid, .readResp tid] ∧
    generateEvents tid = [.writeCmd tid, .readResp tid] ∧
    startEvents tid = [.acquire tid, .release tid] ∧
    (isInterleaving [.writeCmd 1, .writeCmd 2, .readResp 1, .readResp 2]
        (generateEvents 1) (generateEvents 2)
      && lockAdmissible [.writeCmd 1, .writeCmd 2, .readResp 1, .readResp 2]
      && hasOverlappingWrites [.writeCmd 1, .writeCmd 2, .readResp 1, .readResp 2])
      = true :=
  ⟨rfl, rfl, rfl, by decide⟩

/-- C2 counterexample: from a live-worker state, two successive
`WorkerManager.precompute_face` calls for the same avatar put two
`precompute` Commands on the wire (the cache flag `_face_precomputed` is
set but never consulted), refuting "at most one precompute Command". -/
theorem precompute_twice_counterexample :
    ¬ (((wm_precompute_face ⟨true, true, false⟩ ""
          (.line ⟨"ok", none, none, some false⟩)).2.2 ++
        (wm_precompute_face
          (wm_precompute_face ⟨true, true, false⟩ ""
            (.line ⟨"ok", none, none, some false⟩)).2.1
          "" (.line ⟨"ok", none, none, some true⟩)).2.2).length ≤ 1) := by
  decide

/-- C2 amended: every supervisor-side `precompute_face` call against a live
worker writes one `precompute` Command on the wire — deduplication happens
only inside the worker, whose `_face_cache` answers the second identical
request without invoking the inference engine. -/
theorem precompute_cache_amended (st : WMState) (s1 s2 : String)
    (r1 r2 : WResponse) (h : st.processAlive = true) :
    (wm_precompute_face st s1 (.line r1)).2.2 = [.precompute] ∧
    (wm_precompute_face (wm_precompute_face st s1 (.line r1)).2.1 s2
      (.line r2)).2.2 = [.precompute] ∧
    (∀ (w : Worker.WorkerState) (avatar : String) (d1 : Worker.FaceData),
      w.face_cache.lookup avatar = none →
      (Worker.precompute_face w avatar (.success d1)).2.2 = true ∧
      Worker.precompute_face
          ((Worker.precompute_face w avatar (.success d1)).2.1) avatar
          (.success d1)
        = (.ok (true, d1),
           (Worker.precompute_face w avatar (.success d1)).2.1, false)) := by
  refine ⟨wm_precompute_face_wire st s1 r1 h, ?_, ?_⟩
  · have halive :
        (wm_precompute_face st s1 (.line r1)).2.1.processAlive = true := by
      rw [wm_precompute_face_alive]; exact h
    exact wm_precompute_face_wire _ s2 r2 halive
  · intro w avatar d1 hlook
    constructor
    · simp [Worker.precompute_face, hlook]
    · simp [Worker.precompute_face, hlook, List.lookup]

/-- Witness for C2's amended theorem at a live initial state. -/
theorem precompute_cache_amended_witness :
    (wm_precompute_face ⟨true, true, false⟩ ""
      (.line ⟨"ok", none, none, some false⟩)).2.2 = [.precompute] :=
  (precompute_cache_amended ⟨true, true, false⟩ "" ""
    ⟨"ok", none, none, some false⟩ ⟨"ok", none, none, some true⟩ rfl).1

/-- C3 counterexample: on a well-formed `{"status":"error","error":"boom"}`
response from a live worker, `WorkerManager.generate` produces a raised
`RuntimeError("boom")` (`Except.error`), not a normal return value. -/
theorem generate_error_counterexample :
    wm_generate ⟨true, true, true⟩ ""
        (.line ⟨"error", some "boom", none, none⟩)
      = (.error (.runtimeError "boom"), ⟨true, true, true⟩, [.generate]) := by
  rfl

/-- C3 amended: a well-formed error response makes `WorkerManager.generate`
raise `RuntimeError` carrying the worker's error message (the Flask route
maps it to a 500 response); no supervisor state field changes, so the
still-alive worker remains usable for subsequent commands. -/
theorem generate_error_amended (st : WMState) (s msg : String)
    (h : st.processAlive = true) :
    wm_generate st s (.line ⟨"error", some msg, none, none⟩)
      = (.error (.runtimeError msg), st, [.generate]) := by
  simp [wm_generate, send_command, h]

/-- Witness for C3's amended theorem. -/
theorem generate_error_amended_witness :
    wm_generate ⟨true, true, true⟩ "" (.line ⟨"error", some "kaboom", none, none⟩)
      = (.error (.runtimeError "kaboom"), ⟨true, true, true⟩, [.generate]) :=
  generate_error_amended ⟨true, true, true⟩ "" "kaboom" rfl

/-- C6 counterexample: none of the three suspension points carries a
timeout — the lock wait, the handshake read and the response read (even at
the dead `timeout=300` default of `_send_command`) all block unboundedly. -/
theorem timeouts_counterexample :
    lockAcquireWait = BlockingWait.unbounded ∧
    handshakeReadWait = BlockingWait.unbounded ∧
    responseReadWait sendCommandTimeoutDefault = BlockingWait.unbounded :=
  ⟨rfl, rfl, rfl⟩

/-- C6 amended: all three supervisor suspension points block with no
timeout whatever argument is passed — `_send_command`'s `timeout` parameter
(default 300) is accepted but never applied — so neither a handshake nor a
response-read timeout path exists, let alone one treated as worker loss. -/
theorem timeouts_amended (t : ℚ) :
    responseReadWait t = BlockingWait.unbounded ∧
    handshakeReadWait = BlockingWait.unbounded ∧
    lockAcquireWait = BlockingWait.unbounded ∧
    sendCommandTimeoutDefault = 300 :=
  ⟨rfl, rfl, rfl, rfl⟩

/-- C7 counterexample: an empty read mid-`generate` raises the generic
`RuntimeError("Worker died: ...")` and leaves every state field unchanged
(no crashed marker exists); a subsequent `/generate` request against the
now-dead process gets 503 "Worker not ready" — `start()` is not invoked and
the request does not complete. -/
theorem crash_recovery_counterexample :
    wm_generate ⟨true, true, true⟩ "traceback" .closed
      = (.error (.workerDied "traceback"), ⟨true, true, true⟩, [.generate]) ∧
    route_generate ⟨false, true, true⟩ true true ""
        (.line ⟨"ok", none, some "v.mp4", none⟩)
      = (.serviceUnavailable, ⟨false, true, true⟩, false) :=
  ⟨rfl, rfl⟩

/-- C7 amended: a dead output stream fails the in-flight call with a
generic `RuntimeError` (state untouched; liveness is only re-observed via
`poll()`), and every subsequent `/generate` request against a dead process
returns 503 without ever invoking `start()` — there is no lazy restart. -/
theorem crash_recovery_amended (st : WMState) (s : String)
    (ha : st.processAlive = true) (dead : WMState)
    (hd : dead.processAlive = false) (audioProvided avatarOk : Bool)
    (r : WorkerRead) :
    wm_generate st s .closed = (.error (.workerDied s), st, [.generate]) ∧
    route_generate dead audioProvided avatarOk s r
      = (.serviceUnavailable, dead, false) := by
  constructor
  · simp [wm_generate, send_command, ha]
  · simp [route_generate, hd]

/-- Witness for C7's amended theorem. -/
theorem crash_recovery_amended_witness :
    wm_generate ⟨true, true, true⟩ "tb" .closed
      = (.error (.workerDied "tb"), ⟨true, true, true⟩, [.generate]) :=
  (crash_recovery_amended ⟨true, true, true⟩ "tb" rfl ⟨false, true, true⟩ rfl
    true true (.line ⟨"ok", none, none, none⟩)).1

/-- C9 counterexample: a first handshake line `{"status":"loading"}` makes
`start()` return a plain `False` with the spawned process left alive and
`ready` still `false` — no exception is surfaced and no crashed state is
recorded — and the handshake read itself has no timeout. -/
theorem start_handshake_counterexample :
    wm_start ⟨false, false, false⟩ true (.parsed (some "loading"))
      = (false, ⟨true, false, false⟩) ∧
    handshakeReadWait = BlockingWait.unbounded :=
  ⟨rfl, rfl⟩

/-- C9 amended: the worker prints `{"status":"ready"}` exactly once, first,
before answering any command; `start()` (from a not-yet-started state with
a successful spawn) returns `True` iff the first line parses to a payload
whose `status` is `"ready"`; on any other first line it returns `False`
with the process left alive and `ready` unchanged — no exception, no
crashed state, no timeout. -/
theorem start_handshake_amended (cmds : List (Worker.WCommand × Bool))
    (st : WMState) (line : HandshakeLine) (h : st.processAlive = false) :
    (Worker.worker_main_statuses cmds).head? = some "ready" ∧
    (Worker.worker_main_statuses cmds).count "ready" = 1 ∧
    ((wm_start st true line).1 = true ↔ line = .parsed (some "ready")) ∧
    (line ≠ .parsed (some "ready") →
      wm_start st true line = (false, { st with processAlive := true })) := by
  refine ⟨rfl, ?_, ?_, ?_⟩
  · rw [Worker.worker_main_statuses, List.count_cons]
    rw [Worker.loopRun_count_ready]
    rfl
  · cases line with
    | invalid => simp [wm_start, h]
    | parsed status =>
        by_cases hs : status = some "ready"
        · subst hs; simp [wm_start, h]
        · simp [wm_start, h, hs]
  · intro hne
    cases line with
    | invalid => simp [wm_start, h]
    | parsed status =>
        have hs : ¬ status = some "ready" := by
          intro hh; exact hne (by rw [hh])
        simp [wm_start, h, hs]

/-- Witness for C9's amended theorem: a fresh supervisor and a ping-quit
worker session. -/
theorem start_handshake_amended_witness :
    (Worker.worker_main_statuses [(.ping, true), (.quit, true)]).count "ready" = 1 :=
  (start_handshake_amended [(.ping, true), (.quit, true)] ⟨false, false, false⟩
    (.parsed (some "ready")) rfl).2.1

end Supervisor

namespace Cache

/-- C8: in every execution of the store phase of `precompute_face`, the
metadata write (`face_meta.json`) is the last file write and occurs exactly
once, so every artifact write (cropped image, coefficient file) strictly
precedes it; in the normal path where both engine outputs exist the writes
are exactly `[writeCropped, writeCoeff, writeMeta]`. -/
theorem store_meta_last :
    (∀ cropExists coeffExists : Bool,
      (precompute_store_events cropExists coeffExists).getLast?
          = some .writeMeta ∧
      (precompute_store_events cropExists coeffExists).count .writeMeta = 1) ∧
    precompute_store_events true true
      = [.writeCropped, .writeCoeff, .writeMeta] := by
  refine ⟨fun ce fe => ?_, rfl⟩
  cases ce <;> cases fe <;> exact ⟨rfl, rfl⟩

end Cache

namespace Encoder

/-- C10: `_reencode_h264` is total — it never propagates a failure to its
caller.  A raised ffmpeg error, a timeout, or a missing output file all
return the original input path unchanged; only a completed run whose output
file exists returns the `h264_` output path. -/
theorem reencode_never_fails (ex : Bool) (inputPath : String) :
    reencode_h264 .raisedError ex inputPath (h264Name inputPath) = inputPath ∧
    reencode_h264 .timedOut ex inputPath (h264Name inputPath) = inputPath ∧
    reencode_h264 .completed false inputPath (h264Name inputPath) = inputPath ∧
    reencode_h264 .completed true inputPath (h264Name inputPath)
      = h264Name inputPath :=
  ⟨rfl, rfl, rfl, rfl⟩

end Encoder
